import Mathlib

/-!
Verification development for the `gpt_client` repository
(`src/gpt_client.py` and `src/pygpt.py`).

The Python sources are shallowly embedded below.  Strings are modelled as
`List Char`; each external effect (the completion call, the URL fetch, the
operator's confirmation answer, CPython's floating-point formatting of the
truncation percentage) is supplied as an explicit oracle argument, so every
function is a pure, executable Lean definition whose branches mirror the
Python control flow line by line.
-/

/-! ## Tag scanner: semantics of `re.search("<<(.*)>>", input, re.IGNORECASE)`

Both sources use the pattern `<<(.*)>>` (gpt_client.py line 215, pygpt.py
line 204).  `.*` is greedy and `.` does not match a newline, so a match
starts at the leftmost `<<` that is followed by `>>` later on the same
line, and the capture extends to the last `>>` on that line.  The markers
are literal, so `re.IGNORECASE` has no effect on matching. -/

/-- Index of the last occurrence of `">>"` in `l` that is not preceded by a
newline character (the region scanned by the greedy `.*`, which cannot cross
a newline). Returns `none` when no such occurrence exists. -/
def lastGG : List Char → Option Nat
  | [] => none
  | [_] => none
  | c1 :: c2 :: rest =>
    if c1 = '\n' then none
    else
      match lastGG (c2 :: rest) with
      | some j => some (j + 1)
      | none => if c1 = '>' ∧ c2 = '>' then some 0 else none

/-- Index of the first occurrence of `">>"` in `l` that is not preceded by a
newline character.  This is what a NON-greedy `(.*?)` would stop at; it is
defined only to state the spec's "shortest match" reading for comparison
with the source's greedy behaviour. -/
def firstGG : List Char → Option Nat
  | [] => none
  | [_] => none
  | c1 :: c2 :: rest =>
    if c1 = '\n' then none
    else if c1 = '>' ∧ c2 = '>' then some 0
    else (firstGG (c2 :: rest)).map (fun j => j + 1)

/-- `re.search("<<(.*)>>", s)`: returns `some (i, j)` where `i` is the index
of the `<<` opening the leftmost match and `j` is the index of the `>>`
closing it (greedy: the last `>>` on the same line), or `none` when the
pattern does not match anywhere in `s`. -/
def findTag : List Char → Option (Nat × Nat)
  | [] => none
  | [_] => none
  | c1 :: c2 :: rest =>
    if c1 = '<' ∧ c2 = '<' then
      match lastGG rest with
      | some j => some (0, j + 2)
      | none => (findTag (c2 :: rest)).map (fun p => (p.1 + 1, p.2 + 1))
    else (findTag (c2 :: rest)).map (fun p => (p.1 + 1, p.2 + 1))

/-- Non-greedy variant of `findTag`.  Modelled from the spec's words
("non-greedy (shortest match)"); used only to contrast the spec's claimed
behaviour with the source's actual greedy regex. -/
def findTagShortest : List Char → Option (Nat × Nat)
  | [] => none
  | [_] => none
  | c1 :: c2 :: rest =>
    if c1 = '<' ∧ c2 = '<' then
      match firstGG rest with
      | some j => some (0, j + 2)
      | none => (findTagShortest (c2 :: rest)).map (fun p => (p.1 + 1, p.2 + 1))
    else (findTagShortest (c2 :: rest)).map (fun p => (p.1 + 1, p.2 + 1))

/-- The capture that the spec's non-greedy reading would produce. -/
def specShortestCapture (s : List Char) : Option (List Char) :=
  match findTagShortest s with
  | none => none
  | some (i, j) => some ((s.drop (i + 2)).take (j - (i + 2)))

/-- A `">>"` pair at index `j` of `l`, with no newline among the characters
before it (the characters a capture ending at `j` would contain). -/
def GGat (l : List Char) (j : Nat) : Prop :=
  (l.drop j).take 2 = ['>', '>'] ∧ '\n' ∉ l.take j

instance (l : List Char) (j : Nat) : Decidable (GGat l j) := by
  unfold GGat; infer_instance

/-- A full match of `<<(.*)>>` in `s`: `<<` at `i`, `>>` at `j`, the capture
region `[i+2, j)` nonnegative and free of newline characters. -/
def TagMatch (s : List Char) (i j : Nat) : Prop :=
  (s.drop i).take 2 = ['<', '<'] ∧ i + 2 ≤ j ∧ GGat (s.drop (i + 2)) (j - (i + 2))

instance (s : List Char) (i j : Nat) : Decidable (TagMatch s i j) := by
  unfold TagMatch; infer_instance

theorem lastGG_sound : ∀ (l : List Char) (j : Nat), lastGG l = some j → GGat l j := by
  intro l
  induction l with
  | nil => intro j h; simp [lastGG] at h
  | cons c1 tl ih =>
    intro j h
    match tl with
    | [] => simp [lastGG] at h
    | c2 :: rest =>
      rw [lastGG] at h
      by_cases hc : c1 = '\n'
      · simp [hc] at h
      · simp only [if_neg hc] at h
        cases hrec : lastGG (c2 :: rest) with
        | some j0 =>
          rw [hrec] at h
          cases h
          have hg := ih j0 hrec
          obtain ⟨hgg, hnl⟩ := hg
          refine ⟨?_, ?_⟩
          · simpa using hgg
          · intro hmem
            rw [List.take_succ_cons] at hmem
            rcases List.mem_cons.mp hmem with h1 | h2
            · exact hc h1.symm
            · exact hnl h2
        | none =>
          rw [hrec] at h
          by_cases hgt : c1 = '>' ∧ c2 = '>'
          · simp only [if_pos hgt] at h
            cases h
            exact ⟨by simp [hgt.1, hgt.2], by simp⟩
          · simp [if_neg hgt] at h

theorem lastGG_none : ∀ (l : List Char), lastGG l = none → ∀ j, ¬ GGat l j := by
  intro l
  induction l with
  | nil =>
    intro _ j hg
    have := congrArg List.length hg.1
    simp at this
  | cons c1 tl ih =>
    intro h j hg
    match tl with
    | [] =>
      have := congrArg List.length hg.1
      simp [List.length_take, List.length_drop] at this
      omega
    | c2 :: rest =>
      rw [lastGG] at h
      by_cases hc : c1 = '\n'
      · -- any match would either need c1 = '>' (j = 0) or contain the newline
        cases j with
        | zero =>
          have := hg.1
          simp at this
          exact absurd this.1 (by rw [hc]; decide)
        | succ k =>
          have hnl := hg.2
          rw [List.take_succ_cons] at hnl
          exact hnl (by rw [hc]; exact List.mem_cons_self _ _)
      · simp only [if_neg hc] at h
        cases hrec : lastGG (c2 :: rest) with
        | some j0 => rw [hrec] at h; cases h
        | none =>
          rw [hrec] at h
          cases j with
          | zero =>
            have h2 := hg.1
            simp at h2
            rw [if_pos ⟨h2.1, h2.2⟩] at h
            cases h
          | succ k =>
            refine ih hrec k ⟨?_, ?_⟩
            · have := hg.1; simpa using this
            · intro hm
              exact hg.2 (by rw [List.take_succ_cons]; exact List.mem_cons_of_mem _ hm)

theorem lastGG_max : ∀ (l : List Char) (j : Nat), lastGG l = some j →
    ∀ j2, GGat l j2 → j2 ≤ j := by
  intro l
  induction l with
  | nil => intro j h; simp [lastGG] at h
  | cons c1 tl ih =>
    intro j h j2 hg
    match tl with
    | [] => simp [lastGG] at h
    | c2 :: rest =>
      rw [lastGG] at h
      by_cases hc : c1 = '\n'
      · simp [hc] at h
      · simp only [if_neg hc] at h
        cases hrec : lastGG (c2 :: rest) with
        | some j0 =>
          rw [hrec] at h
          cases h
          cases j2 with
          | zero => exact Nat.zero_le _
          | succ k =>
            have : GGat (c2 :: rest) k := by
              refine ⟨by simpa using hg.1, ?_⟩
              intro hm
              exact hg.2 (by rw [List.take_succ_cons]; exact List.mem_cons_of_mem _ hm)
            exact Nat.succ_le_succ (ih j0 hrec k this)
        | none =>
          rw [hrec] at h
          by_cases hgt : c1 = '>' ∧ c2 = '>'
          · simp only [if_pos hgt] at h
            cases h
            cases j2 with
            | zero => exact Nat.le_refl 0
            | succ k =>
              exfalso
              refine lastGG_none (c2 :: rest) hrec k ⟨by simpa using hg.1, ?_⟩
              intro hm
              exact hg.2 (by rw [List.take_succ_cons]; exact List.mem_cons_of_mem _ hm)
          · simp [if_neg hgt] at h

theorem findTag_sound : ∀ (s : List Char) (i j : Nat), findTag s = some (i, j) →
    TagMatch s i j := by
  intro s
  induction s with
  | nil => intro i j h; simp [findTag] at h
  | cons c1 tl ih =>
    intro i j h
    match tl with
    | [] => simp [findTag] at h
    | c2 :: rest =>
      rw [findTag] at h
      by_cases hlt : c1 = '<' ∧ c2 = '<'
      · simp only [if_pos hlt] at h
        cases hrec : lastGG rest with
        | some j0 =>
          rw [hrec] at h
          cases h
          have hg := lastGG_sound rest j0 hrec
          exact ⟨by simp [hlt.1, hlt.2], by omega, by simpa using hg⟩
        | none =>
          rw [hrec] at h
          cases hft : findTag (c2 :: rest) with
          | none => rw [hft] at h; cases h
          | some p =>
            rw [hft] at h
            cases h
            have hm := ih p.1 p.2 (by rw [hft])
            obtain ⟨h1, h2, h3⟩ := hm
            refine ⟨by simpa using h1, by omega, ?_⟩
            have : (c1 :: c2 :: rest).drop (p.1 + 1 + 2) = (c2 :: rest).drop (p.1 + 2) := by
              simp [List.drop_succ_cons]
            rw [this]
            have : p.2 + 1 - (p.1 + 1 + 2) = p.2 - (p.1 + 2) := by omega
            rw [this]
            exact h3
      · simp only [if_neg hlt] at h
        cases hft : findTag (c2 :: rest) with
        | none => rw [hft] at h; cases h
        | some p =>
          rw [hft] at h
          cases h
          have hm := ih p.1 p.2 (by rw [hft])
          obtain ⟨h1, h2, h3⟩ := hm
          refine ⟨by simpa using h1, by omega, ?_⟩
          have : (c1 :: c2 :: rest).drop (p.1 + 1 + 2) = (c2 :: rest).drop (p.1 + 2) := by
            simp [List.drop_succ_cons]
          rw [this]
          have : p.2 + 1 - (p.1 + 1 + 2) = p.2 - (p.1 + 2) := by omega
          rw [this]
          exact h3

theorem tagMatch_cons_succ (c : Char) (t : List Char) (i j : Nat) :
    TagMatch (c :: t) (i + 1) (j + 1) ↔ TagMatch t i j := by
  unfold TagMatch
  rw [List.drop_succ_cons]
  have h1 : (c :: t).drop (i + 1 + 2) = t.drop (i + 2) := by
    have : i + 1 + 2 = (i + 2) + 1 := by omega
    rw [this, List.drop_succ_cons]
  rw [h1]
  have h2 : j + 1 - (i + 1 + 2) = j - (i + 2) := by omega
  rw [h2]
  constructor
  · rintro ⟨a, b, d⟩; exact ⟨a, by omega, d⟩
  · rintro ⟨a, b, d⟩; exact ⟨a, by omega, d⟩

theorem tagMatch_cons2_zero (c1 c2 : Char) (rest : List Char) (j : Nat) :
    TagMatch (c1 :: c2 :: rest) 0 j ↔ c1 = '<' ∧ c2 = '<' ∧ 2 ≤ j ∧ GGat rest (j - 2) := by
  unfold TagMatch
  simp only [List.drop_zero, Nat.zero_add]
  have h1 : (c1 :: c2 :: rest).take 2 = [c1, c2] := rfl
  have h2 : (c1 :: c2 :: rest).drop 2 = rest := rfl
  rw [h1, h2]
  constructor
  · rintro ⟨a, b, d⟩
    have := List.cons_eq_cons.mp a
    have h3 := List.cons_eq_cons.mp this.2
    exact ⟨this.1, h3.1, b, d⟩
  · rintro ⟨a, b, d, e⟩
    exact ⟨by rw [a, b], d, e⟩

theorem findTag_none : ∀ (s : List Char), findTag s = none → ∀ i j, ¬ TagMatch s i j := by
  intro s
  induction s with
  | nil =>
    intro _ i j hm
    have := congrArg List.length hm.1
    simp at this
  | cons c1 tl ih =>
    intro h i j hm
    match tl with
    | [] =>
      have := congrArg List.length hm.1
      simp [List.length_take, List.length_drop] at this
      omega
    | c2 :: rest =>
      rw [findTag] at h
      by_cases hlt : c1 = '<' ∧ c2 = '<'
      · simp only [if_pos hlt] at h
        cases hrec : lastGG rest with
        | some j0 => rw [hrec] at h; cases h
        | none =>
          rw [hrec] at h
          have hnone : findTag (c2 :: rest) = none := by
            cases hft : findTag (c2 :: rest) with
            | none => rfl
            | some p => rw [hft] at h; cases h
          cases i with
          | zero =>
            have := (tagMatch_cons2_zero c1 c2 rest j).mp hm
            exact lastGG_none rest hrec (j - 2) this.2.2.2
          | succ k =>
            have hj : k + 3 ≤ j := hm.2.1
            cases j with
            | zero => omega
            | succ j0 =>
              exact ih hnone k j0 ((tagMatch_cons_succ c1 (c2 :: rest) k j0).mp hm)
      · simp only [if_neg hlt] at h
        have hnone : findTag (c2 :: rest) = none := by
          cases hft : findTag (c2 :: rest) with
          | none => rfl
          | some p => rw [hft] at h; cases h
        cases i with
        | zero =>
          have := (tagMatch_cons2_zero c1 c2 rest j).mp hm
          exact hlt ⟨this.1, this.2.1⟩
        | succ k =>
          have hj : k + 3 ≤ j := hm.2.1
          cases j with
          | zero => omega
          | succ j0 =>
            exact ih hnone k j0 ((tagMatch_cons_succ c1 (c2 :: rest) k j0).mp hm)

theorem findTag_min : ∀ (s : List Char) (i j : Nat), findTag s = some (i, j) →
    ∀ i2 j2, TagMatch s i2 j2 → i ≤ i2 := by
  intro s
  induction s with
  | nil => intro i j h; simp [findTag] at h
  | cons c1 tl ih =>
    intro i j h i2 j2 hm
    match tl with
    | [] => simp [findTag] at h
    | c2 :: rest =>
      rw [findTag] at h
      by_cases hlt : c1 = '<' ∧ c2 = '<'
      · simp only [if_pos hlt] at h
        cases hrec : lastGG rest with
        | some j0 =>
          rw [hrec] at h
          cases h
          exact Nat.zero_le _
        | none =>
          rw [hrec] at h
          cases hft : findTag (c2 :: rest) with
          | none => rw [hft] at h; cases h
          | some p =>
            rw [hft] at h
            cases h
            cases i2 with
            | zero =>
              exfalso
              have := (tagMatch_cons2_zero c1 c2 rest j2).mp hm
              exact lastGG_none rest hrec (j2 - 2) this.2.2.2
            | succ k =>
              have hj : k + 3 ≤ j2 := hm.2.1
              cases j2 with
              | zero => omega
              | succ j0 =>
                have := ih p.1 p.2 (by rw [hft]) k j0
                  ((tagMatch_cons_succ c1 (c2 :: rest) k j0).mp hm)
                omega
      · simp only [if_neg hlt] at h
        cases hft : findTag (c2 :: rest) with
        | none => rw [hft] at h; cases h
        | some p =>
          rw [hft] at h
          cases h
          cases i2 with
          | zero =>
            exfalso
            have := (tagMatch_cons2_zero c1 c2 rest j2).mp hm
            exact hlt ⟨this.1, this.2.1⟩
          | succ k =>
            have hj : k + 3 ≤ j2 := hm.2.1
            cases j2 with
            | zero => omega
            | succ j0 =>
              have := ih p.1 p.2 (by rw [hft]) k j0
                ((tagMatch_cons_succ c1 (c2 :: rest) k j0).mp hm)
              omega

theorem findTag_maxEnd : ∀ (s : List Char) (i j : Nat), findTag s = some (i, j) →
    ∀ j2, TagMatch s i j2 → j2 ≤ j := by
  intro s
  induction s with
  | nil => intro i j h; simp [findTag] at h
  | cons c1 tl ih =>
    intro i j h j2 hm
    match tl with
    | [] => simp [findTag] at h
    | c2 :: rest =>
      rw [findTag] at h
      by_cases hlt : c1 = '<' ∧ c2 = '<'
      · simp only [if_pos hlt] at h
        cases hrec : lastGG rest with
        | some j0 =>
          rw [hrec] at h
          cases h
          have hz := (tagMatch_cons2_zero c1 c2 rest j2).mp hm
          have := lastGG_max rest j0 hrec (j2 - 2) hz.2.2.2
          omega
        | none =>
          rw [hrec] at h
          cases hft : findTag (c2 :: rest) with
          | none => rw [hft] at h; cases h
          | some p =>
            rw [hft] at h
            cases h
            have hj : p.1 + 1 + 2 ≤ j2 := hm.2.1
            cases j2 with
            | zero => omega
            | succ j0 =>
              have := ih p.1 p.2 (by rw [hft]) j0
                ((tagMatch_cons_succ c1 (c2 :: rest) p.1 j0).mp hm)
              omega
      · simp only [if_neg hlt] at h
        cases hft : findTag (c2 :: rest) with
        | none => rw [hft] at h; cases h
        | some p =>
          rw [hft] at h
          cases h
          have hj : p.1 + 1 + 2 ≤ j2 := hm.2.1
          cases j2 with
          | zero => omega
          | succ j0 =>
            have := ih p.1 p.2 (by rw [hft]) j0
              ((tagMatch_cons_succ c1 (c2 :: rest) p.1 j0).mp hm)
            omega

theorem findTag_bound (s : List Char) (i j : Nat) (h : findTag s = some (i, j)) :
    i + 2 ≤ j ∧ j + 2 ≤ s.length := by
  have hm := findTag_sound s i j h
  obtain ⟨_, h2, h3, _⟩ := hm
  refine ⟨h2, ?_⟩
  have h4 : (s.drop (i + 2)).drop (j - (i + 2)) = s.drop j := by
    rw [List.drop_drop]
    congr 1
    omega
  rw [h4] at h3
  have := congrArg List.length h3
  simp only [List.length_take, List.length_drop, List.length_cons, List.length_nil] at this
  omega

/-- Fuelled worker for `reSubTag`.  Each removal step consumes at least the
four marker characters, so `s.length` units of fuel always suffice. -/
def reSubTagFuel : Nat → List Char → List Char
  | 0, s => s
  | fuel + 1, s =>
    match findTag s with
    | none => s
    | some (i, j) => s.take i ++ reSubTagFuel fuel (s.drop (j + 2))

/-- `re.sub("<<(.*)>>", "", s)`: removes every (greedy, leftmost-first)
match of the tag pattern from `s` (gpt_client.py line 217). -/
def reSubTag (s : List Char) : List Char :=
  reSubTagFuel s.length s

/-- The tag-scanner step of `generate_response` in gpt_client.py (lines
215 - 218): `re.search` for the first (greedy) `<<...>>` span; when found,
the span is removed from the message (`re.sub`) and the capture is the
candidate address.  Returns `(message, optional capture)`. -/
def tagScan (s : List Char) : List Char × Option (List Char) :=
  match findTag s with
  | none => (s, none)
  | some (i, j) => (reSubTag s, some ((s.drop (i + 2)).take (j - (i + 2))))

/-! ## String helpers shared by both sources -/

/-- Fuelled worker for `pyReplace` (structural recursion so that concrete
inputs evaluate inside the kernel). -/
def replAllFuel (pat rep : List Char) : Nat → List Char → List Char
  | 0, s => s
  | _, [] => []
  | fuel + 1, c :: cs =>
    if pat.isPrefixOf (c :: cs) then
      rep ++ replAllFuel pat rep fuel ((c :: cs).drop pat.length)
    else
      c :: replAllFuel pat rep fuel cs

/-- Python `s.replace(pat, rep)`: replaces every occurrence of `pat` in `s`
left to right, non-overlapping.  `s.length` fuel suffices because every
step either consumes `pat` (nonempty in all uses below) or one character. -/
def pyReplace (s pat rep : List Char) : List Char :=
  replAllFuel pat rep s.length s

/-- Python `pat in s` on strings: `pat` occurs contiguously in `s`. -/
def containsSub (pat : List Char) : List Char → Bool
  | [] => pat.isEmpty
  | c :: cs => pat.isPrefixOf (c :: cs) || containsSub pat cs

/-- Python `s.lower()` (ASCII arguments only in this program). -/
def lowerStr (s : List Char) : List Char :=
  s.map Char.toLower

/-- `webpagetext.replace("\n", " ")` (gpt_client.py line 155, pygpt.py
line 128): every newline becomes a single space. -/
def flattenNewlines (s : List Char) : List Char :=
  s.map (fun c => if c = '\n' then ' ' else c)

/-! ## Data model -/

/-- Role tag of one transcript entry (`"system"`, `"user"`, `"assistant"`). -/
inductive Role
  | system
  | user
  | assistant
deriving DecidableEq

/-- One entry of the OpenAI-format message list
`{"role": ..., "content": ...}`. -/
structure Turn where
  role : Role
  content : List Char
deriving DecidableEq

/-- Token counts reported by a successful completion call. -/
structure UsageMetadata where
  prompt_tokens : Nat
  completion_tokens : Nat
deriving DecidableEq

/-- The exception kinds distinguished by the `except` clauses of
`submit_to_gpt` (gpt_client.py lines 110-131).  `otherException` stands for
any exception that is not an `openai` library error. -/
inductive OpenAIExc
  | openAIError
  | apiConnectionError
  | serviceUnavailableError
  | rateLimitError
  | invalidRequestError
  | timeout
  | otherException
deriving DecidableEq

/-- Outcome of the external completion call
(`openai.ChatCompletion.create`): either a reply with usage counts, or an
exception of kind `k` whose human-readable detail text is `detail`. -/
inductive ServiceOutcome
  | success (reply : List Char) (prompt_tokens completion_tokens : Nat)
  | failure (kind : OpenAIExc) (detail : List Char)
deriving DecidableEq

/-- Outcome of the external page fetch
(`urllib.request.urlopen(...).read()` followed by BeautifulSoup text
extraction): the extracted visible text, or one of the exception kinds
distinguished by `get_url_contents`. -/
inductive FetchOutcome
  | success (raw : List Char)
  | httpError (code : Nat)
  | urlError
  | otherError
deriving DecidableEq

/-- In the `openai` Python library targeted by these sources (the 0.x API:
`openai.ChatCompletion.create`, `openai.error.*`), `RateLimitError`,
`InvalidRequestError`, `Timeout`, `APIConnectionError` and
`ServiceUnavailableError` are all subclasses of `openai.error.OpenAIError`,
which the package re-exports at top level as `openai.OpenAIError`.  Hence
`except openai.OpenAIError` matches every library-raised exception. -/
def isOpenAIError : OpenAIExc → Bool
  | .otherException => false
  | _ => true

/-- The error text printed by `submit_to_gpt`'s `except` chain
(gpt_client.py lines 110-131), translated clause by clause in source
order: Python takes the FIRST `except` clause whose class matches, and the
`except openai.OpenAIError` clause comes first. -/
def submit_error_message (k : OpenAIExc) (detail : List Char) : List Char :=
  if isOpenAIError k then "OpenAI API Error: ".toList ++ detail
  else if k = .apiConnectionError then
    "Sorry, wasn".toList ++ [Char.ofNat 39] ++
      "t able to connect to API for some reason: ".toList ++ detail ++ ".".toList
  else if k = .serviceUnavailableError then
    "Sorry, API appears to be temporarily unavailable: ".toList ++ detail ++ ".".toList
  else if k = .rateLimitError then
    "Sorry, hit a too-many-users limit: ".toList ++ detail ++ ".".toList
  else if k = .invalidRequestError then
    "Sorry, hit a too-long-submission limit: ".toList ++ detail ++ ".".toList
  else if k = .timeout then
    "Sorry, request apparently timed out: ".toList ++ detail ++ ".".toList
  else "An error occurred: ".toList ++ detail

/-- Result of `submit_to_gpt`: `ok` is `some (reply, metadata)` on success.
On failure the Python function prints `printed` and returns the bare string
`""` instead of a pair; the assistant turn is appended to `messages` only
on success (gpt_client.py lines 98-133). -/
structure SubmitResult where
  ok : Option (List Char × UsageMetadata)
  messages : List Turn
  printed : Option (List Char)
deriving DecidableEq

/-- `submit_to_gpt(messages, model, temperature, top_p)` of gpt_client.py
(lines 83-133) with the completion call's outcome supplied as an oracle.
The sampling parameters do not influence any control flow and are omitted. -/
def submit_to_gpt (messages : List Turn) (svc : ServiceOutcome) : SubmitResult :=
  match svc with
  | .success r p c => ⟨some (r, ⟨p, c⟩), messages ++ [⟨.assistant, r⟩], none⟩
  | .failure k detail => ⟨none, messages, some (submit_error_message k detail)⟩

/-- The truncation preamble of `get_url_contents` (gpt_client.py lines
166-171).  `pct` stands for CPython's decimal formatting of the float
`maxchar / orig_length_webpagetext * 100.0`; it is passed in as an oracle
because IEEE-754 repr is outside this embedding, and no claim depends on
its digits. -/
def truncPreamble (maxchar : Nat) (pct : List Char) : List Char :=
  "GPT please note that due to length, webpage truncated to first ".toList
    ++ (toString maxchar).toList
    ++ " characters,about ".toList ++ pct
    ++ "%, which may affect your interpretation of it:\n------------------\n".toList

/-- Result of `get_url_contents`: the scraped (possibly truncated) text and
the `skip_input` flag that suppresses the completion call. -/
structure FetchResult where
  webpagetext : Option (List Char)
  skip_input : Bool
deriving DecidableEq

/-- `get_url_contents(url, maxchar)` of gpt_client.py (lines 136-183).
`fetch` is the network-layer outcome for the given url, `confirm` the
operator's answer to the truncation prompt, `pct` the formatted percentage
(see `truncPreamble`).  On the accepting branch the source PREPENDS the
preamble and then slices the combined string to `maxchar` characters
(lines 166-172: `webpagetext = (preamble) + webpagetext` followed by
`webpagetext = webpagetext[:maxchar]`). -/
def get_url_contents (fetch : FetchOutcome) (confirm pct : List Char)
    (maxchar : Nat) : FetchResult :=
  match fetch with
  | .success raw =>
    let t := flattenNewlines raw
    if t.length > maxchar then
      if lowerStr confirm ≠ "y".toList ∧ lowerStr confirm ≠ "yes".toList then
        ⟨some t, true⟩
      else
        ⟨some ((truncPreamble maxchar pct ++ t).take maxchar), false⟩
    else ⟨some t, false⟩
  | .httpError _ => ⟨none, true⟩
  | .urlError => ⟨none, true⟩
  | .otherError => ⟨none, true⟩

/-- The module-level default system message `SYSMESSAGE`
(gpt_client.py lines 64-73). -/
def SYSMESSAGE : List Char :=
  ("The following is a conversation with an AI assistant. The assistant is "
    ++ "helpful, creative, friendly. Its answers are polite but brief, only "
    ++ "rarely exceeding a single paragraph when really necessary to explain "
    ++ "a point. The assistant labels all markdown code snippets with the "
    ++ "code language. Mathematical answers and expressions written by the "
    ++ "assistant are always formatted in unicode characters rather than "
    ++ "latex, using full mathematical notation rather than programming "
    ++ "notation. The assistant only very occasionally uses emojis to "
    ++ "show enthusiasm.").toList

/-- The module-level default `MAXCHAR` (gpt_client.py line 58). -/
def MAXCHAR : Nat := 20000

/-- The default value of `generate_response`'s `messages` parameter
(gpt_client.py line 187).  CPython evaluates a default argument once, at
function definition time, so every call that omits `messages` shares this
single list object; `list.append` mutates it in place across calls. -/
def defaultMessages : List Turn :=
  [⟨.system, SYSMESSAGE⟩]

/-- Result of one `generate_response` call: the returned
`(reply, metadata, messages)` triple, plus `submitted`, the transcript
passed to the completion service (`none` when no completion call was made
this turn). -/
structure GenResult where
  reply : Option (List Char)
  metadata : Option UsageMetadata
  messages : List Turn
  submitted : Option (List Turn)
deriving DecidableEq

/-- `generate_response(input, messages, ...)` of gpt_client.py (lines
186-246): scan for a `<<...>>` tag; when present, remove it from the
message and fetch the captured address; unless the fetch step set
`skip_input`, append the user turn(s) (the literal message only when
non-empty, the page text only nested under that) and call `submit_to_gpt`.
On a service failure the unpacking of the returned `""` raises and is
caught by the surrounding `try` (lines 234-244), leaving `reply` and
`metadata` as `None`. -/
def generate_response (input : List Char) (messages : List Turn)
    (maxchar : Nat) (fetch : FetchOutcome) (confirm pct : List Char)
    (svc : ServiceOutcome) : GenResult :=
  let scanned := tagScan input
  let fetched : Option (List Char) × Bool :=
    match scanned.2 with
    | none => (none, false)
    | some _url =>
      let r := get_url_contents fetch confirm pct maxchar
      (r.webpagetext, r.skip_input)
  if fetched.2 then ⟨none, none, messages, none⟩
  else
    let messages1 :=
      if scanned.1 = [] then messages
      else
        match fetched.1 with
        | some w => messages ++ [⟨.user, scanned.1⟩, ⟨.user, w⟩]
        | none => messages ++ [⟨.user, scanned.1⟩]
    let sr := submit_to_gpt messages1 svc
    match sr.ok with
    | some (r, m) => ⟨some r, some m, sr.messages, some messages1⟩
    | none => ⟨none, none, sr.messages, some messages1⟩

/-- The transcript seeded into the process-wide `webapp_state` by the
`webapp` entry point (gpt_client.py lines 485-493). -/
def webappInitMessages (sysmessage : List Char) : List Turn :=
  [⟨.system, sysmessage⟩]

/-- `gradio_response(input, history)` of gpt_client.py (lines 413-445).
The widget-supplied `history` parameter is received but never read: the
call delegates to `generate_response` on the process-global
`webapp_state["messages"]` transcript.  Python returns only the reply
text; the full `GenResult` is kept here so the submitted transcript can be
stated. -/
def gradio_response (input : List Char) (history : List (List Char × List Char))
    (webapp_messages : List Turn) (maxchar : Nat) (fetch : FetchOutcome)
    (confirm pct : List Char) (svc : ServiceOutcome) : GenResult :=
  generate_response input webapp_messages maxchar fetch confirm pct svc

/-- The multi-line accumulation loop of `CmdLineInterpreter.default`
(gpt_client.py lines 364-371), entered when `"<<multi>>" in line`:
repeatedly strip `<<multi>>` from the accumulated text, read the next
line, and append it newline-joined (with `<<end>>`, then `<<multi>>`,
stripped from a terminating line; `<<multi>>` stripped from others) until
a line containing `<<end>>` arrives.  `pending` is the queue of lines the
operator will enter; `none` models the loop still blocked on `input()`
after the queue is exhausted. -/
def multiAccum (line : List Char) (pending : List (List Char)) :
    Option (List Char) :=
  match pending with
  | [] => none
  | next :: rest =>
    let line1 := pyReplace line "<<multi>>".toList []
    if containsSub "<<end>>".toList next then
      some (line1 ++ '\n' ::
        pyReplace (pyReplace next "<<end>>".toList []) "<<multi>>".toList [])
    else
      multiAccum (line1 ++ '\n' :: pyReplace next "<<multi>>".toList []) rest

/-! ## pygpt.py (the earlier revision of the same program) -/

/-- Python exception kinds relevant to pygpt.py's per-turn control flow.
`attributeError` is raised by `.group(1)` on a failed `re.search`
(pygpt.py line 204), `unboundLocalError` by reading a local variable that
was never assigned on the taken path, `valueError` by unpacking the bare
`""` that `submit_to_gpt` returns on failure, and
`keyboardInterrupt` / `eofError` are the two kinds the overridden
`cmdloop` catches (pygpt.py lines 337-344). -/
inductive PyExc
  | attributeError
  | valueError
  | unboundLocalError
  | keyboardInterrupt
  | eofError
deriving DecidableEq

instance {ε α : Type} [DecidableEq ε] [DecidableEq α] : DecidableEq (Except ε α) :=
  fun a b =>
    match a, b with
    | .error e1, .error e2 =>
      if h : e1 = e2 then isTrue (by rw [h])
      else isFalse (by intro hc; cases hc; exact h rfl)
    | .ok a1, .ok a2 =>
      if h : a1 = a2 then isTrue (by rw [h])
      else isFalse (by intro hc; cases hc; exact h rfl)
    | .error _, .ok _ => isFalse (by intro hc; cases hc)
    | .ok _, .error _ => isFalse (by intro hc; cases hc)

/-- Which exception classes the `try` in `CmdLineInterpreter.cmdloop`
(pygpt.py lines 337-344, identical in gpt_client.py lines 339-346)
catches: only `KeyboardInterrupt` and `EOFError`.  Anything else raised
while a turn is processed propagates and terminates the process. -/
def pygpt_cmdloop_catches : PyExc → Bool
  | .keyboardInterrupt => true
  | .eofError => true
  | _ => false

/-- `get_url_contents(url)` of pygpt.py (lines 96-156).  `maxchar` is the
hard-coded `15000` (line 120).  Unlike the gpt_client.py revision, this
version never initialises `webpagetext`, so on any fetch exception the
final `return webpagetext, skip_input` (line 156) raises
`UnboundLocalError`. -/
def pygpt_get_url_contents (fetch : FetchOutcome) (confirm pct : List Char) :
    Except PyExc (Option (List Char) × Bool) :=
  match fetch with
  | .success raw =>
    let maxchar : Nat := 15000
    let t := flattenNewlines raw
    if t.length > maxchar then
      if lowerStr confirm ≠ "y".toList ∧ lowerStr confirm ≠ "yes".toList then
        .ok (some t, true)
      else
        .ok (some ((truncPreamble maxchar pct ++ t).take maxchar), false)
    else .ok (some t, false)
  | _ => .error .unboundLocalError

/-- `generate_response(input, messages, ...)` of pygpt.py (lines 159-230),
as an `Except` tracking the exceptions this revision lets escape:

* line 204 calls `.group(1)` directly on the `re.search` result, so any
  input without a `<<...>>` match raises `AttributeError`;
* the matched span is NOT removed from `input` (there is no `re.sub`), so
  the original text is appended as the user turn;
* when `skip_input` is set, `reply` and `metadata` were never assigned and
  `return reply, metadata` (line 230) raises `UnboundLocalError`;
* when `submit_to_gpt` fails it returns `""`, and the tuple unpacking at
  line 225 raises `ValueError` (there is no `try` around it here).

`messages = none` models the Python `None` default re-created per call
(lines 187-199). -/
def pygpt_generate_response (input : List Char) (messages : Option (List Turn))
    (fetch : FetchOutcome) (confirm pct : List Char) (svc : ServiceOutcome) :
    Except PyExc (List Char × UsageMetadata × List Turn) :=
  let messages := messages.getD [⟨.system, SYSMESSAGE⟩]
  match findTag input with
  | none => .error .attributeError
  | some (i, j) =>
    let url := (input.drop (i + 2)).take (j - (i + 2))
    let fetchStep : Except PyExc (Option (List Char) × Bool) :=
      if url = [] then .ok (none, false)
      else pygpt_get_url_contents fetch confirm pct
    match fetchStep with
    | .error e => .error e
    | .ok (web, skip) =>
      if skip then .error .unboundLocalError
      else
        let messages1 :=
          if input = [] then messages
          else
            match web with
            | some w => messages ++ [⟨.user, input⟩, ⟨.user, w⟩]
            | none => messages ++ [⟨.user, input⟩]
        match svc with
        | .success r p c => .ok (r, ⟨p, c⟩, messages1 ++ [⟨.assistant, r⟩])
        | .failure _ _ => .error .valueError

/-- The transcript `gradio_response` of pygpt.py builds from the widget
history (lines 415-417): each `[user_msg, bot_msg]` pair becomes a `user`
turn then an `assistant` turn.  No system turn is added. -/
def pygpt_gradio_messages (history : List (List Char × List Char)) : List Turn :=
  history.flatMap (fun p => [⟨.user, p.1⟩, ⟨.assistant, p.2⟩])

/-- `gradio_response(input, history)` of pygpt.py (lines 396-423):
rebuilds the message list from the widget history and delegates to
`generate_response`, returning only the reply text. -/
def pygpt_gradio_response (input : List Char)
    (history : List (List Char × List Char)) (fetch : FetchOutcome)
    (confirm pct : List Char) (svc : ServiceOutcome) :
    Except PyExc (List Char) :=
  (pygpt_generate_response input (some (pygpt_gradio_messages history))
    fetch confirm pct svc).map (fun t => t.1)

/-! ## Supporting lemmas -/

theorem reSubTagFuel_of_none {t : List Char} (h : findTag t = none) :
    ∀ n, reSubTagFuel n t = t
  | 0 => rfl
  | n + 1 => by simp [reSubTagFuel, h]

theorem not_mem_take_drop {c : Char} {s : List Char} (h : c ∉ s) (n m : Nat) :
    c ∉ (s.drop n).take m := by
  intro hm
  exact h (((List.take_sublist _ _).trans (List.drop_sublist _ _)).subset hm)

theorem no_match_after_greedy (s : List Char) (i j : Nat) (hnl : '\n' ∉ s)
    (hft : findTag s = some (i, j)) : findTag (s.drop (j + 2)) = none := by
  cases hsub : findTag (s.drop (j + 2)) with
  | none => rfl
  | some p =>
    exfalso
    have hm := findTag_sound _ p.1 p.2 (by rw [hsub])
    have hm0 := findTag_sound s i j hft
    obtain ⟨hA, hB, hC, _⟩ := hm
    have e1 : ((s.drop (j + 2)).drop (p.1 + 2)).drop (p.2 - (p.1 + 2))
        = s.drop (j + 2 + p.2) := by
      rw [List.drop_drop, List.drop_drop]
      congr 1
      omega
    rw [e1] at hC
    have hmatch : TagMatch s i (j + 2 + p.2) := by
      obtain ⟨g1, g2, _, _⟩ := hm0
      refine ⟨g1, by omega, ?_, ?_⟩
      · have e2 : (s.drop (i + 2)).drop (j + 2 + p.2 - (i + 2))
            = s.drop (j + 2 + p.2) := by
          rw [List.drop_drop]
          congr 1
          omega
        rw [e2]
        exact hC
      · exact not_mem_take_drop hnl _ _
    have := findTag_maxEnd s i j hft (j + 2 + p.2) hmatch
    omega

theorem reSubTag_single (s : List Char) (i j : Nat) (hft : findTag s = some (i, j))
    (hnone : findTag (s.drop (j + 2)) = none) :
    reSubTag s = s.take i ++ s.drop (j + 2) := by
  have hb := findTag_bound s i j hft
  unfold reSubTag
  obtain ⟨n, hn⟩ : ∃ n, s.length = n + 1 := ⟨s.length - 1, by omega⟩
  rw [hn]
  simp only [reSubTagFuel, hft, reSubTagFuel_of_none hnone]

theorem tagScan_of_none {s : List Char} (h : findTag s = none) :
    tagScan s = (s, none) := by
  simp [tagScan, h]

/-! ## Claim theorems -/

/-- C1 counterexample: the scanner is greedy, not non-greedy.  On input
`"a<<x>>b<<y>>c"` the code captures `"x>>b<<y"` (first `<<` to LAST `>>`)
and removes that whole span, while the claim's non-greedy (shortest match)
reading would capture `"x"`. -/
theorem c1_counterexample :
    tagScan "a<<x>>b<<y>>c".toList = ("ac".toList, some "x>>b<<y".toList) ∧
    specShortestCapture "a<<x>>b<<y>>c".toList = some "x".toList ∧
    "x>>b<<y".toList ≠ "x".toList := by decide

/-- C1 amended: for every (newline-free, i.e. raw single-line) user input,
the scanner finds the GREEDY leftmost match of `<<...>>` — the `<<` at the
least index admitting a match, paired with the `>>` at the greatest index —
captures the text between the markers and removes the matched span; for
every input containing no `<<...>>` span, the scanner returns the input
unchanged and reports no candidate address, so no link expansion is
attempted. -/
theorem c1_greedy_scan (s : List Char) (hnl : '\n' ∉ s) :
    ((∀ i j, ¬ TagMatch s i j) → tagScan s = (s, none)) ∧
    (∀ i j, findTag s = some (i, j) →
      TagMatch s i j ∧
      (∀ i2 j2, TagMatch s i2 j2 → i ≤ i2) ∧
      (∀ j2, TagMatch s i j2 → j2 ≤ j) ∧
      tagScan s = (s.take i ++ s.drop (j + 2),
        some ((s.drop (i + 2)).take (j - (i + 2))))) := by
  constructor
  · intro hno
    cases hft : findTag s with
    | none => exact tagScan_of_none hft
    | some p =>
      exact absurd (findTag_sound s p.1 p.2 (by rw [hft])) (hno p.1 p.2)
  · intro i j hft
    refine ⟨findTag_sound s i j hft, findTag_min s i j hft, findTag_maxEnd s i j hft, ?_⟩
    have hsub := reSubTag_single s i j hft (no_match_after_greedy s i j hnl hft)
    simp [tagScan, hft, hsub]

/-- C1 witness: the amended theorem applied to the concrete inputs
`"hello"` (no span: passes through unchanged) and `"a<<x>>b<<y>>c"`
(greedy capture). -/
theorem c1_greedy_scan_witness :
    tagScan "hello".toList = ("hello".toList, none) ∧
    tagScan "a<<x>>b<<y>>c".toList = ("ac".toList, some "x>>b<<y".toList) := by
  constructor
  · refine (c1_greedy_scan "hello".toList (by decide)).1 ?_
    intro i j hm
    have h1 : '<' ∈ ("hello".toList.drop i).take 2 := by
      rw [hm.1]
      exact List.mem_cons_self _ _
    have hmem : '<' ∈ "hello".toList :=
      ((List.take_sublist _ _).trans (List.drop_sublist _ _)).subset h1
    exact absurd hmem (by decide)
  · have h2 := ((c1_greedy_scan "a<<x>>b<<y>>c".toList (by decide)).2 1 10
      (by decide)).2.2.2
    rw [h2]
    decide

/-- C2: on any completion-service failure, the transcript keeps the user
turn appended just before the call but gains no assistant turn (the reply
is `None`), and the next successful turn submits the full accumulated
transcript including that unanswered user turn.  Stated for tag-free,
non-empty inputs `a` (the failed turn) and `b` (the next turn). -/
theorem c2_failure_retains_user_turn (M : List Turn) (a b : List Char)
    (maxchar : Nat) (fetch : FetchOutcome) (confirm pct : List Char)
    (k : OpenAIExc) (d r : List Char) (p c : Nat)
    (ha : findTag a = none) (ha2 : a ≠ []) (hb : findTag b = none) (hb2 : b ≠ []) :
    (generate_response a M maxchar fetch confirm pct (.failure k d)).messages
        = M ++ [⟨.user, a⟩] ∧
    (generate_response a M maxchar fetch confirm pct (.failure k d)).reply = none ∧
    (generate_response b
        (generate_response a M maxchar fetch confirm pct (.failure k d)).messages
        maxchar fetch confirm pct (.success r p c)).submitted
      = some (M ++ [⟨.user, a⟩, ⟨.user, b⟩]) := by
  have hscanA := tagScan_of_none ha
  have hscanB := tagScan_of_none hb
  refine ⟨?_, ?_, ?_⟩ <;>
    simp [generate_response, hscanA, hscanB, submit_to_gpt, ha2, hb2]

/-- C2 witness: the theorem at the concrete failed turn `"x"` (timeout)
followed by the successful turn `"y"`. -/
theorem c2_failure_retains_user_turn_witness :
    (generate_response "x".toList [] 20000 .otherError [] []
        (.failure .timeout "d".toList)).messages = [] ++ [⟨.user, "x".toList⟩] ∧
    (generate_response "x".toList [] 20000 .otherError [] []
        (.failure .timeout "d".toList)).reply = none ∧
    (generate_response "y".toList
        (generate_response "x".toList [] 20000 .otherError [] []
          (.failure .timeout "d".toList)).messages
        20000 .otherError [] [] (.success "r".toList 1 2)).submitted
      = some ([] ++ [⟨.user, "x".toList⟩, ⟨.user, "y".toList⟩]) :=
  c2_failure_retains_user_turn [] "x".toList "y".toList 20000 .otherError [] []
    .timeout "d".toList "r".toList 1 2 (by decide) (by decide) (by decide) (by decide)

/-- C3: per-turn failures in pygpt.py are NOT caught and NOT converted to a
user-facing message: the tag-free input line `"hello"` raises
`AttributeError` (`.group(1)` on a failed search, line 204), a
completion-service failure raises `ValueError` (unpacking the `""` that
`submit_to_gpt` returns, line 225), and a fetch failure raises
`UnboundLocalError` (`webpagetext` never assigned, line 156) — and the
overridden `cmdloop` catches only `KeyboardInterrupt`/`EOFError`, so each
of these terminates the interactive loop, contradicting the claim (which
gpt_client.py's revision of `generate_response` satisfies by catching the
submit failure). -/
theorem c3_pygpt_turn_failures_uncaught :
    pygpt_generate_response "hello".toList none .otherError [] []
        (.success "r".toList 1 1) = .error .attributeError ∧
    pygpt_generate_response "see <<u>>".toList none (.success "T".toList) [] []
        (.failure .rateLimitError "x".toList) = .error .valueError ∧
    pygpt_generate_response "see <<u>>".toList none (.httpError 404) [] []
        (.success "r".toList 1 1) = .error .unboundLocalError ∧
    pygpt_cmdloop_catches .attributeError = false ∧
    pygpt_cmdloop_catches .valueError = false ∧
    pygpt_cmdloop_catches .unboundLocalError = false := by decide

/-- C4 counterexample: with cap 10, a 20-character page body and an
accepting operator, the injected text is the 10-character string
`"GPT please"` — the preamble IS counted against the cap (the combined
preamble-plus-body string is sliced to `maxchar`), and the body is absent
entirely, contradicting "truncated body of exactly `max_injected_chars`
characters preceded by an uncounted preamble" (which would give a
`preamble.length + 10`-character result). -/
theorem c4_counterexample :
    (get_url_contents (.success (List.replicate 20 'a')) "y".toList
        "50.0".toList 10).webpagetext = some "GPT please".toList ∧
    ("GPT please".toList).length = 10 ∧
    "GPT please".toList
      ≠ truncPreamble 10 "50.0".toList ++ (List.replicate 20 'a').take 10 := by
  decide

/-- C4 amended: whenever the fetched (newline-flattened) text exceeds
`maxchar` and the operator accepts, the preamble is prepended and the
COMBINED string is truncated to exactly `maxchar` characters, so the
injected text always has length exactly `maxchar` (the preamble is counted
against the cap) and the turn proceeds (`skip_input = false`). -/
theorem c4_truncation_counts_preamble (raw confirm pct : List Char)
    (maxchar : Nat) (hlong : maxchar < (flattenNewlines raw).length)
    (hyes : lowerStr confirm = "y".toList ∨ lowerStr confirm = "yes".toList) :
    get_url_contents (.success raw) confirm pct maxchar
      = ⟨some ((truncPreamble maxchar pct ++ flattenNewlines raw).take maxchar),
          false⟩ ∧
    ((truncPreamble maxchar pct ++ flattenNewlines raw).take maxchar).length
      = maxchar := by
  constructor
  · rcases hyes with h | h <;> simp [get_url_contents, hlong, h]
  · rw [List.length_take, List.length_append]
    omega

/-- C4 witness: the amended theorem at cap 10, a 20-character body and an
accepting operator. -/
theorem c4_truncation_counts_preamble_witness :
    get_url_contents (.success (List.replicate 20 'a')) "y".toList
        "50.0".toList 10
      = ⟨some ((truncPreamble 10 "50.0".toList
          ++ flattenNewlines (List.replicate 20 'a')).take 10), false⟩ ∧
    ((truncPreamble 10 "50.0".toList
        ++ flattenNewlines (List.replicate 20 'a')).take 10).length = 10 :=
  c4_truncation_counts_preamble (List.replicate 20 'a') "y".toList
    "50.0".toList 10 (by decide) (Or.inl (by decide))

set_option maxRecDepth 8192 in
/-- C5 counterexample: with a fresh webapp transcript and widget history
`[["hi", "hello!"]]`, gpt_client.py's adapter submits
`[system, user:"how are you?"]` — the caller-supplied history is ignored
entirely, not reconstructed, so the submitted transcript is NOT
`[system, user:"hi", assistant:"hello!", user:"how are you?"]` as the
claim requires. -/
theorem c5_counterexample :
    (gradio_response "how are you?".toList [("hi".toList, "hello!".toList)]
        (webappInitMessages SYSMESSAGE) 20000 .otherError [] []
        (.success "I am fine".toList 1 1)).submitted
      = some [⟨.system, SYSMESSAGE⟩, ⟨.user, "how are you?".toList⟩] ∧
    ([⟨.system, SYSMESSAGE⟩, ⟨.user, "how are you?".toList⟩] : List Turn)
      ≠ [⟨.system, SYSMESSAGE⟩, ⟨.user, "hi".toList⟩,
          ⟨.assistant, "hello!".toList⟩, ⟨.user, "how are you?".toList⟩] := by
  decide

/-- C5 amended: neither adapter reconstructs the claimed transcript.
gpt_client.py's `gradio_response` ignores the widget-supplied history
altogether (its result is identical for any two histories) and submits the
process-global transcript plus the new turn; pygpt.py's adapter rebuilds
the history as alternating `user`/`assistant` turns WITHOUT re-seeding a
system turn, and then raises `AttributeError` on any tag-free input such
as `"how are you?"` before anything is submitted. -/
theorem c5_adapter_behavior (input : List Char)
    (h1 h2 : List (List Char × List Char)) (g : List Turn) (maxchar : Nat)
    (fetch : FetchOutcome) (confirm pct : List Char) (svc : ServiceOutcome) :
    gradio_response input h1 g maxchar fetch confirm pct svc
      = gradio_response input h2 g maxchar fetch confirm pct svc ∧
    pygpt_gradio_messages [("hi".toList, "hello!".toList)]
      = [⟨.user, "hi".toList⟩, ⟨.assistant, "hello!".toList⟩] ∧
    pygpt_gradio_response "how are you?".toList
        [("hi".toList, "hello!".toList)] fetch confirm pct svc
      = .error .attributeError := by
  exact ⟨rfl, by decide, rfl⟩

/-- C5 witness: the amended theorem at the claim's concrete scenario, two
different histories, and a fresh global transcript. -/
theorem c5_adapter_behavior_witness :
    gradio_response "how are you?".toList [("hi".toList, "hello!".toList)]
        (webappInitMessages SYSMESSAGE) 20000 .otherError [] []
        (.success "I am fine".toList 1 1)
      = gradio_response "how are you?".toList []
        (webappInitMessages SYSMESSAGE) 20000 .otherError [] []
        (.success "I am fine".toList 1 1) ∧
    pygpt_gradio_response "how are you?".toList
        [("hi".toList, "hello!".toList)] .otherError [] []
        (.success "I am fine".toList 1 1)
      = .error .attributeError := by
  have h := c5_adapter_behavior "how are you?".toList
    [("hi".toList, "hello!".toList)] [] (webappInitMessages SYSMESSAGE) 20000
    .otherError [] [] (.success "I am fine".toList 1 1)
  exact ⟨h.1, h.2.2⟩

/-- C6 counterexample: on the claimed input sequence the accumulated
message is `" line1\nline2\n line3"` — the markers are stripped but the
whitespace that separated them from the text is kept — so the submitted
message is NOT the claimed `"line1\nline2\nline3"`. -/
theorem c6_counterexample :
    multiAccum "<<multi>> line1".toList
        ["line2".toList, "<<end>> line3".toList]
      = some " line1\nline2\n line3".toList ∧
    " line1\nline2\n line3".toList ≠ "line1\nline2\nline3".toList := by decide

/-- C6 amended: the input sequence `"<<multi>> line1"`, `"line2"`,
`"<<end>> line3"` accumulates to the single message
`" line1\nline2\n line3"` (newline-joined, both markers stripped, adjacent
whitespace preserved), which contains no `<<multi>>`/`<<end>>` marker and
is submitted as the sole user turn. -/
theorem c6_multiline_whitespace :
    multiAccum "<<multi>> line1".toList
        ["line2".toList, "<<end>> line3".toList]
      = some " line1\nline2\n line3".toList ∧
    containsSub "<<multi>>".toList " line1\nline2\n line3".toList = false ∧
    containsSub "<<end>>".toList " line1\nline2\n line3".toList = false ∧
    (generate_response " line1\nline2\n line3".toList [] 20000 .otherError
        [] [] (.success "r".toList 1 1)).submitted
      = some [⟨.user, " line1\nline2\n line3".toList⟩] := by decide

/-- C7: whenever the tag scanner found a `<<...>>` span and the link
expansion aborts — the fetch failed at the network layer, or the text was
over the cap and the operator declined — `generate_response` leaves the
transcript exactly as it was and makes no completion call
(`submitted = none`), returning `None` for reply and metadata. -/
theorem c7_abort_atomicity (input : List Char) (M : List Turn) (maxchar : Nat)
    (fetch : FetchOutcome) (confirm pct : List Char) (svc : ServiceOutcome)
    (i j : Nat) (htag : findTag input = some (i, j))
    (habort : (∀ raw, fetch ≠ .success raw) ∨
      (∃ raw, fetch = .success raw ∧ maxchar < (flattenNewlines raw).length ∧
        lowerStr confirm ≠ "y".toList ∧ lowerStr confirm ≠ "yes".toList)) :
    generate_response input M maxchar fetch confirm pct svc
      = ⟨none, none, M, none⟩ := by
  have hskip : (get_url_contents fetch confirm pct maxchar).skip_input = true := by
    rcases habort with h | ⟨raw, hr, hlen, hy1, hy2⟩
    · cases fetch with
      | success raw => exact absurd rfl (h raw)
      | httpError code => rfl
      | urlError => rfl
      | otherError => rfl
    · subst hr
      have hy1b : ¬ lowerStr confirm = ['y'] := hy1
      have hy2b : ¬ lowerStr confirm = ['y', 'e', 's'] := hy2
      simp [get_url_contents, hlen, hy1b, hy2b]
  simp [generate_response, tagScan, htag, hskip]

/-- C7 witness: an aborted turn — input `"<<u>>"` whose fetch fails with a
URL error — leaves the empty transcript empty and submits nothing. -/
theorem c7_abort_atomicity_witness :
    generate_response "<<u>>".toList [] 20000 .urlError [] []
        (.success "r".toList 1 1) = ⟨none, none, [], none⟩ :=
  c7_abort_atomicity "<<u>>".toList [] 20000 .urlError [] []
    (.success "r".toList 1 1) 0 3 (by decide)
    (Or.inl (fun raw h => by cases h))

/-- C8: the classification is broken.  Because `except openai.OpenAIError`
is the FIRST clause of `submit_to_gpt`'s handler chain and every
library-raised failure kind (rate-limit, invalid-request/too-long,
timeout, connection, service-unavailable) is a subclass of
`openai.OpenAIError`, each of them is reported with the generic
`"OpenAI API Error: ..."` text; the kind-specific clauses below it are
unreachable, so no failure ever produces its kind-specific message. -/
theorem c8_misclassified_service_errors :
    submit_error_message .rateLimitError "x".toList
      = "OpenAI API Error: x".toList ∧
    submit_error_message .invalidRequestError "x".toList
      = "OpenAI API Error: x".toList ∧
    submit_error_message .timeout "x".toList
      = "OpenAI API Error: x".toList ∧
    submit_error_message .rateLimitError "x".toList
      ≠ "Sorry, hit a too-many-users limit: x.".toList ∧
    submit_error_message .invalidRequestError "x".toList
      ≠ "Sorry, hit a too-long-submission limit: x.".toList ∧
    submit_error_message .timeout "x".toList
      ≠ "Sorry, request apparently timed out: x.".toList := by decide

/-- C9 counterexample: for the entirely empty message with no link text,
`generate_response` appends no turns but STILL makes the completion call —
submitting the unchanged (here empty) transcript and even appending the
service's reply as an assistant turn — contradicting "no turns appended
and no completion call is made". -/
theorem c9_counterexample :
    (generate_response "".toList [] 20000 .otherError [] []
        (.success "ok".toList 1 2)).submitted = some [] ∧
    (generate_response "".toList [] 20000 .otherError [] []
        (.success "ok".toList 1 2)).messages
      = [⟨.assistant, "ok".toList⟩] := by decide

/-- C9 amended: when link expansion did not abort, a user turn with the
literal message is appended iff the literal message is non-empty; the link
text is appended as a second user turn only when the literal message is
also non-empty (an empty literal message discards produced link text); and
the completion call is made in every such turn, with the unchanged
transcript when the literal message is empty. -/
theorem c9_compose_behavior (input : List Char) (M : List Turn) (maxchar : Nat)
    (fetch : FetchOutcome) (confirm pct : List Char) (svc : ServiceOutcome)
    (hnoskip : (tagScan input).2 = none ∨
      (get_url_contents fetch confirm pct maxchar).skip_input = false) :
    ((generate_response input M maxchar fetch confirm pct svc).submitted).isSome
      = true ∧
    ((tagScan input).1 = [] →
      (generate_response input M maxchar fetch confirm pct svc).submitted
        = some M) ∧
    ((tagScan input).1 ≠ [] → (tagScan input).2 = none →
      (generate_response input M maxchar fetch confirm pct svc).submitted
        = some (M ++ [⟨.user, (tagScan input).1⟩])) ∧
    (∀ w, (tagScan input).1 ≠ [] → (tagScan input).2 ≠ none →
      (get_url_contents fetch confirm pct maxchar).webpagetext = some w →
      (generate_response input M maxchar fetch confirm pct svc).submitted
        = some (M ++ [⟨.user, (tagScan input).1⟩, ⟨.user, w⟩])) := by
  rcases hscan : tagScan input with ⟨lit, cap⟩
  rcases hurl : get_url_contents fetch confirm pct maxchar with ⟨web, skip⟩
  rw [hscan, hurl] at hnoskip
  cases cap with
  | none =>
    by_cases hlit : lit = [] <;>
      cases svc <;>
        simp [generate_response, hscan, hurl, submit_to_gpt, hlit]
  | some u =>
    have hskip : skip = false := by
      rcases hnoskip with h | h
      · cases h
      · exact h
    subst hskip
    cases web with
    | none =>
      by_cases hlit : lit = [] <;>
        cases svc <;>
          simp [generate_response, hscan, hurl, submit_to_gpt, hlit]
    | some w0 =>
      by_cases hlit : lit = [] <;>
        cases svc <;>
          simp [generate_response, hscan, hurl, submit_to_gpt, hlit]

/-- C9 witness: the amended theorem at the tag-free non-empty input
`"hi"`, showing the single appended user turn and the call being made. -/
theorem c9_compose_behavior_witness :
    ((generate_response "hi".toList [] 20000 .otherError [] []
        (.success "r".toList 1 2)).submitted).isSome = true ∧
    (generate_response "hi".toList [] 20000 .otherError [] []
        (.success "r".toList 1 2)).submitted
      = some ([] ++ [⟨.user, (tagScan "hi".toList).1⟩]) := by
  have h := c9_compose_behavior "hi".toList [] 20000 .otherError [] []
    (.success "r".toList 1 2) (Or.inl (by decide))
  exact ⟨h.1, h.2.2.1 (by decide) (by decide)⟩

/-- C10: in gpt_client.py the default `messages` list of
`generate_response` is created once at definition time, so two successive
calls that both omit `messages` share it: the first call's user turn and
assistant reply are present in — and submitted with — the second call's
transcript, and the two calls submit different transcripts despite
identical arguments.  (The shared mutated object is modelled by threading
the first call's `messages` result into the second call, exactly what
CPython's aliasing of the default list does.) -/
theorem c10_shared_default_transcript (a r1 r2 : List Char)
    (p1 c1 p2 c2 : Nat) (maxchar : Nat) (fetch : FetchOutcome)
    (confirm pct : List Char) (ha : findTag a = none) (ha2 : a ≠ []) :
    (generate_response a defaultMessages maxchar fetch confirm pct
        (.success r1 p1 c1)).submitted
      = some (defaultMessages ++ [⟨.user, a⟩]) ∧
    (generate_response a
        (generate_response a defaultMessages maxchar fetch confirm pct
          (.success r1 p1 c1)).messages
        maxchar fetch confirm pct (.success r2 p2 c2)).submitted
      = some (defaultMessages ++ [⟨.user, a⟩, ⟨.assistant, r1⟩, ⟨.user, a⟩]) ∧
    (generate_response a defaultMessages maxchar fetch confirm pct
        (.success r1 p1 c1)).submitted
      ≠ (generate_response a
          (generate_response a defaultMessages maxchar fetch confirm pct
            (.success r1 p1 c1)).messages
          maxchar fetch confirm pct (.success r2 p2 c2)).submitted := by
  have hscan := tagScan_of_none ha
  have hA : (generate_response a defaultMessages maxchar fetch confirm pct
      (.success r1 p1 c1)).submitted = some (defaultMessages ++ [⟨.user, a⟩]) := by
    simp [generate_response, hscan, submit_to_gpt, ha2]
  have hM : (generate_response a defaultMessages maxchar fetch confirm pct
      (.success r1 p1 c1)).messages
      = defaultMessages ++ [⟨.user, a⟩, ⟨.assistant, r1⟩] := by
    simp [generate_response, hscan, submit_to_gpt, ha2]
  have hB : (generate_response a
      (generate_response a defaultMessages maxchar fetch confirm pct
        (.success r1 p1 c1)).messages
      maxchar fetch confirm pct (.success r2 p2 c2)).submitted
      = some (defaultMessages ++ [⟨.user, a⟩, ⟨.assistant, r1⟩, ⟨.user, a⟩]) := by
    rw [hM]
    simp [generate_response, hscan, submit_to_gpt, ha2]
  refine ⟨hA, hB, ?_⟩
  rw [hA, hB]
  intro hEq
  have hlist := Option.some.inj hEq
  have hlen := congrArg List.length hlist
  simp [List.length_append] at hlen

/-- C10 witness: the theorem at the repeated input `"hi"`, replies
`"hello!"` then `"ok"`. -/
theorem c10_shared_default_transcript_witness :
    (generate_response "hi".toList defaultMessages 20000 .otherError [] []
        (.success "hello!".toList 1 1)).submitted
      = some (defaultMessages ++ [⟨.user, "hi".toList⟩]) ∧
    (generate_response "hi".toList
        (generate_response "hi".toList defaultMessages 20000 .otherError [] []
          (.success "hello!".toList 1 1)).messages
        20000 .otherError [] [] (.success "ok".toList 1 1)).submitted
      = some (defaultMessages ++ [⟨.user, "hi".toList⟩,
          ⟨.assistant, "hello!".toList⟩, ⟨.user, "hi".toList⟩]) ∧
    (generate_response "hi".toList defaultMessages 20000 .otherError [] []
        (.success "hello!".toList 1 1)).submitted
      ≠ (generate_response "hi".toList
          (generate_response "hi".toList defaultMessages 20000 .otherError [] []
            (.success "hello!".toList 1 1)).messages
          20000 .otherError [] [] (.success "ok".toList 1 1)).submitted :=
  c10_shared_default_transcript "hi".toList "hello!".toList "ok".toList 1 1 1 1
    20000 .otherError [] [] (by decide) (by decide)
